import Mathlib

/-!
Verification of the vector-store / retrieval core of the repository
(`backend/rag.py`) against its specification.

Modelling choices, stated once:

* We embed the pure in-memory implementation that the repository itself
  contains: the `HAS_FAISS = False` fallback branch of `FaissStore`
  (`rag.py`, lines 52-158).  The `HAS_FAISS = True` branch delegates the
  vector arithmetic to the external `faiss` library, which is not part of
  the repository; the fallback branch is the complete in-repo
  implementation of add/search/persist/load and is the branch exercised by
  the lightweight deployments the module header describes.
* Machine floats are idealised as rational numbers.  `np.linalg.norm`
  (a floating-point square root of a sum of squares) is modelled by
  `ratSqrt`, an exact square root on rationals whose numerator and
  denominator are perfect squares; every concrete numeric input used in a
  theorem below is chosen so that the square root involved is exact, so
  the idealisation is faithful at those points.
* `np.argsort` (ascending, the numpy default kind) is modelled as a stable
  ascending argsort via `List.insertionSort`.  the numpy introsort runs
  plain insertion sort on small arrays, so it is stable there; every
  concrete tie-order evaluation below uses such a small array, and a
  stable ascending sort of a list is unique, so any stable model is the
  same function there.
* The Python built-in `hash` on `str` is salted per process
  (`PYTHONHASHSEED`); it is modelled as a fold over the characters seeded
  with an explicit process salt.  The only property of the model the
  theorems use is that the salt can change the hash, which is exactly
  the documented CPython hash randomisation.
* The filesystem of one index directory is modelled by `DirDisk`, with
  `Option` for file presence and a nested `Option` for parseability.
-/

set_option maxRecDepth 8192

namespace Rag

/-- A vector: ordered sequence of (idealised) floats. -/
abbrev Vec := List ℚ

/-- A metadata record (`rag.py` stores dicts with at least `text` and
`source`; `search` adds a `score` key to a copy).  Extra passthrough
fields are irrelevant to every claim and are omitted. -/
structure DocRec where
  text : String := ""
  source : String := ""
  score : Option ℚ := none
deriving DecidableEq, Repr

/-- In-memory state of `FaissStore` in the fallback branch:
`self.dim`, `self.vectors`, `self.metadatas` (`rag.py` lines 37-44). -/
structure FaissStore where
  dim : ℕ
  vectors : List Vec
  metadatas : List DocRec
deriving DecidableEq, Repr

/-- Constant `EMBEDDING_DIM = 384` (`rag.py` line 18). -/
def EMBEDDING_DIM : ℕ := 384

/-- The `1e-8` epsilon guard used in `add` and `search` (`rag.py`
lines 121, 135, 150), idealised as the exact rational. -/
def eps : ℚ := 1 / 100000000

/-- Exact square root on rationals with perfect-square numerator and
denominator; models the floating-point square root inside
`np.linalg.norm` (see the header note on idealisation). -/
def ratSqrt (q : ℚ) : ℚ := (Nat.sqrt q.num.toNat : ℚ) / (Nat.sqrt q.den : ℚ)

/-- Norm `np.linalg.norm(v)`: square root of the sum of squares. -/
def l2norm (v : Vec) : ℚ := ratSqrt ((v.map (fun x => x * x)).sum)

/-- Dot product `np.dot` of two equal-length vectors. -/
def dot (a b : Vec) : ℚ := (List.zipWith (· * ·) a b).sum

/-- Normalised query `query / (np.linalg.norm(query) + 1e-8)` (`rag.py` line 135). -/
def normalizeQuery (query : Vec) : Vec := query.map (fun x => x / (l2norm query + eps))

/-- Similarity array `similarities = np.dot(vectors_array, q)` (`rag.py` line 137): the
inner product of each stored vector with the normalised query. -/
def similarities (s : FaissStore) (query : Vec) : List ℚ :=
  s.vectors.map (fun v => dot v (normalizeQuery query))

/-- Model of `np.argsort(xs)`: indices of `xs` in ascending order of
value, ties kept in index order — the stable ascending argsort (the
numpy sort runs plain insertion sort, which is stable, on the small
arrays every concrete evaluation below uses; the stable ascending sort
of a list is unique, so any stable model is the same function). -/
def keyLE (xs : List ℚ) (i j : ℕ) : Prop := xs.getD i 0 ≤ xs.getD j 0

instance (xs : List ℚ) : DecidableRel (keyLE xs) := fun i j => by
  unfold keyLE
  infer_instance

instance (xs : List ℚ) : IsTotal ℕ (keyLE xs) := ⟨fun _ _ => le_total _ _⟩

instance (xs : List ℚ) : IsTrans ℕ (keyLE xs) := ⟨fun _ _ _ => le_trans⟩

def argsort (xs : List ℚ) : List ℕ :=
  (List.range xs.length).insertionSort (keyLE xs)

/-- Python slicing `l[:k]` for an `int` `k`: a non-negative `k` takes the
first `k` elements, a negative `k` drops the last `|k|`. -/
def pySlice (l : List α) (k : ℤ) : List α :=
  if 0 ≤ k then l.take k.toNat else l.take ((l.length : ℤ) + k).toNat

/-- Ranking `top_indices = np.argsort(similarities)[::-1][:k]` (`rag.py` line 139). -/
def topIndices (s : FaissStore) (query : Vec) (k : ℤ) : List ℕ :=
  pySlice (argsort (similarities s query)).reverse k

/-- Result construction (`rag.py` lines 143-144): `self.metadatas[idx].copy()`
followed by setting the score key — the returned record is a copy of the
stored one with the score added. -/
def withScore (r : DocRec) (sc : ℚ) : DocRec := { r with score := some sc }

/-- Fallback branch of `FaissStore.search` (`rag.py` lines 129-146):
empty store short-circuits to `[]`; otherwise normalise the query, take
the top-`k` indices of the similarity array, and keep each index that
passes the bounds check `0 <= idx < len(self.metadatas)`. -/
def search (s : FaissStore) (query : Vec) (k : ℤ) : List DocRec :=
  if s.vectors = [] then []
  else
    (topIndices s query k).filterMap (fun i =>
      if h : i < s.metadatas.length then
        some (withScore (s.metadatas.get ⟨i, h⟩) ((similarities s query).getD i 0))
      else none)

/-- Fallback branch of `FaissStore.add` (`rag.py` lines 109-116): appends
the given vectors as they are (no normalisation in this branch) and
extends the metadata list. -/
def add (s : FaissStore) (vecs : List Vec) (metas : List DocRec) : FaissStore :=
  { s with vectors := s.vectors ++ vecs, metadatas := s.metadatas ++ metas }

/-- On-disk state of one index directory.  `faissIndex` is the
FAISS-format file at `index_path`; `npyBlob` the numpy blob at
`index_path + ".npy"`; `metaJson` the manifest at `meta_path`.  `none` =
file absent; `some none` = present but unreadable/unparsable; `some
(some x)` = parses to `x`. -/
structure DirDisk where
  faissIndex : Option Unit := none
  npyBlob : Option (Option (List Vec)) := none
  metaJson : Option (Option (List DocRec)) := none
deriving DecidableEq

/-- Fallback branch of `FaissStore._save` (`rag.py` lines 53-61): writes
the numpy blob and the manifest (the FAISS-format file is untouched). -/
def save (s : FaissStore) (d : DirDisk) : DirDisk :=
  { d with npyBlob := some (some s.vectors), metaJson := some (some s.metadatas) }

/-- Fallback branch of `FaissStore._load` (`rag.py` lines 73-90): if both
files exist and both parse, the two lists are taken as-is (no
length-consistency check); any missing or unparsable file yields the
empty lists.  This branch returns before the `_save()` on line 106, so it
never writes. -/
def loadContents (d : DirDisk) : List Vec × List DocRec :=
  match d.npyBlob, d.metaJson with
  | some b, some m =>
    match b, m with
    | some vs, some ms => (vs, ms)
    | _, _ => ([], [])
  | _, _ => ([], [])

/-- Constructing a `FaissStore` (its `__init__` calls `_load`): the
resulting in-memory store paired with the disk, which the fallback load
path leaves exactly as it was. -/
def loadStore (dim : ℕ) (d : DirDisk) : FaissStore × DirDisk :=
  (⟨dim, (loadContents d).1, (loadContents d).2⟩, d)

/-- Mutation `add` followed by the write-through `_save` (`rag.py` line 114). -/
def addSave (s : FaissStore) (d : DirDisk) (vecs : List Vec) (metas : List DocRec) :
    FaissStore × DirDisk :=
  (add s vecs metas, save (add s vecs metas) d)

/-- The module-level `INDEX_STATE` dict (`rag.py` line 161): the cached
store handle and the directory it was bound to. -/
structure RagState where
  store : Option FaissStore := none
  dir : Option String := none
deriving DecidableEq

/-- Import-time `INDEX_STATE`: store is None, dim is EMBEDDING_DIM, dir is None. -/
def initState : RagState := {}

/-- Function `get_or_create_index(index_dir)` (`rag.py` lines 179-192) over a
per-directory filesystem `disks`: when a store handle is cached it is
returned unchanged — the `index_dir` argument is not consulted at all;
only when the handle is `None` is a store loaded from `index_dir` and
cached together with the directory. -/
def get_or_create_index (disks : String → DirDisk) (st : RagState) (index_dir : String) :
    FaissStore × RagState :=
  match st.store with
  | some s => (s, st)
  | none =>
    let s := (loadStore EMBEDDING_DIM (disks index_dir)).1
    (s, { store := some s, dir := some index_dir })

/-- The file deletions of `clear_index` (`rag.py` lines 246-251): removes
`faiss.index` (the FAISS-format file) and `metadatas.json`; the fallback
blob `faiss.index.npy` is not among the removed paths. -/
def clearDisk (d : DirDisk) : DirDisk :=
  { d with faissIndex := none, metaJson := none }

/-- Function `clear_index(index_dir)` (`rag.py` lines 243-255): performs the file
deletions in `index_dir` and resets `INDEX_STATE["store"]` to `None`
(`INDEX_STATE["dir"]` is left as it is). -/
def clear_index (disks : String → DirDisk) (st : RagState) (index_dir : String) :
    (String → DirDisk) × RagState :=
  (fun x => if x = index_dir then clearDisk (disks x) else disks x,
   { st with store := none })

/-- Modelled from CPython semantics: `hash` on `str` is keyed by a
per-process salt (hash randomisation via `PYTHONHASHSEED`, on by
default).  Modelled as a fold over the characters seeded with the salt;
the only property used below is that the salt can change the value,
which is the documented behaviour. -/
def pyHash (salt : ℕ) (text : String) : ℤ :=
  text.toList.foldl (fun h c => h * 1000003 + (c.toNat : ℤ)) (salt : ℤ)

/-- Seed expression `abs(hash(text)) % (2**32)` — the value fed to
`np.random.default_rng` in `get_embedding` (`rag.py` line 175). -/
def fallbackSeed (salt : ℕ) (text : String) : ℕ :=
  (pyHash salt text).natAbs % 2 ^ 32

/-- Function `get_embedding` with the fallback provider active (`rag.py` lines
174-176): the returned vector is the fixed numpy generator `G` (seeded
standard-normal draw of `INDEX_STATE["dim"]` values) applied to the
salted-hash-derived seed.  `G` is kept abstract: every theorem below
depends only on how the seed is produced, never on the numeric output
of the generator. -/
def get_embedding (G : ℕ → ℕ → Vec) (salt : ℕ) (text : String) : Vec :=
  G (fallbackSeed salt text) EMBEDDING_DIM

/-- Python `str.strip()`: remove whitespace characters from both ends
of the string. -/
def pyStrip (t : String) : String :=
  (((t.toList.dropWhile Char.isWhitespace).reverse.dropWhile Char.isWhitespace).reverse).asString

/-- The drop test of `upsert_documents` (`rag.py` line 204):
`if not text or not text.strip(): continue` — the doc is dropped when
its text is the empty string or strips to the empty string. -/
def blankText (t : String) : Bool := t == "" || pyStrip t == ""

/-- Function `upsert_documents(index, docs)` (`rag.py` lines 195-210) over an
abstract embedding function `emb` (the `get_embedding` of the module): drops
every doc whose text is empty or blank after trimming, embeds the rest
in order, and calls `add` once with the batch; when nothing survives
(including the `if not docs: return` case) the store and disk are
untouched. -/
def upsert_documents (emb : String → Vec) (s : FaissStore) (d : DirDisk)
    (docs : List DocRec) : FaissStore × DirDisk :=
  let pairs := docs.filterMap (fun doc =>
    if blankText doc.text then none else some (emb doc.text, doc))
  if pairs = [] then (s, d)
  else addSave s d (pairs.map Prod.fst) (pairs.map Prod.snd)

/-- The store states reachable through the public operations applied to
non-corrupt inputs: a freshly created empty store, and `add` called with
equal-length argument lists (`search` and the separate write-through
`_save` do not change the two in-memory lists at all, so they need no
constructor). -/
inductive ReachableStore : FaissStore → Prop where
  | empty (dim : ℕ) : ReachableStore ⟨dim, [], []⟩
  | step (s : FaissStore) (vecs : List Vec) (metas : List DocRec)
      (hs : ReachableStore s) (hlen : vecs.length = metas.length) :
      ReachableStore (add s vecs metas)

/-- Concrete fixture records used in the closed evaluations below. -/
def rec0 : DocRec := { text := "doc0", source := "a.txt" }

def rec1 : DocRec := { text := "doc1", source := "b.txt" }

/-- An on-disk state whose two artifacts are readable but have mismatched
counts: one vector, zero metadata records. -/
def mismatchedDisk : DirDisk :=
  { npyBlob := some (some [[1, 0]]), metaJson := some (some []) }

/-- A second mismatched on-disk state (two vectors, one record). -/
def mismatchedDisk2 : DirDisk :=
  { npyBlob := some (some [[1, 0], [0, 1]]), metaJson := some (some [rec0]) }

/-- An on-disk state with both fallback artifacts present. -/
def populatedDisk : DirDisk :=
  { npyBlob := some (some [[1, 0]]), metaJson := some (some [rec0]) }

/-- The three-document ingestion scenario from the specification: a
physics document, a document whose text contains the placeholder marker,
and a document with empty text. -/
def scenarioDocs : List DocRec :=
  [ { text := "Newtons second law: F=ma", source := "physics.pdf" },
    { text := "placeholder text", source := "x.txt" },
    { text := "", source := "y.txt" } ]

/-- A store whose vector list is longer than its metadata list, as
produced by loading count-mismatched artifacts. -/
def misalignedStore : FaissStore := ⟨2, [[1, 0], [0, 1]], [rec0]⟩

theorem ratSqrt_zero : ratSqrt 0 = 0 := by simp [ratSqrt]

theorem ratSqrt_one : ratSqrt 1 = 1 := by simp [ratSqrt]

theorem natSqrt_four : Nat.sqrt 4 = 2 := Nat.sqrt_eq 2

theorem natSqrt_nine : Nat.sqrt 9 = 3 := Nat.sqrt_eq 3

theorem ratSqrt_four : ratSqrt 4 = 2 := by
  simp [ratSqrt, natSqrt_four]

theorem ratSqrt_nine : ratSqrt 9 = 3 := by
  simp [ratSqrt, natSqrt_nine]

theorem length_similarities (s : FaissStore) (q : Vec) :
    (similarities s q).length = s.vectors.length := by
  simp [similarities]

theorem argsort_perm (xs : List ℚ) : List.Perm (argsort xs) (List.range xs.length) :=
  List.perm_insertionSort _ _

theorem argsort_length (xs : List ℚ) : (argsort xs).length = xs.length := by
  rw [(argsort_perm xs).length_eq, List.length_range]

theorem mem_argsort {xs : List ℚ} {i : ℕ} : i ∈ argsort xs ↔ i < xs.length := by
  rw [(argsort_perm xs).mem_iff, List.mem_range]

theorem argsort_sorted (xs : List ℚ) : (argsort xs).Pairwise (keyLE xs) :=
  List.sorted_insertionSort _ _

theorem pair_sublist_range {i j n : ℕ} (hij : i < j) (hj : j < n) :
    List.Sublist [i, j] (List.range n) := by
  revert hj
  induction n with
  | zero => intro hj; exact absurd hj (by omega)
  | succ m ih =>
    intro hj
    rw [List.range_succ]
    rcases Nat.lt_or_ge j m with h | h
    · exact (ih h).trans (List.sublist_append_left _ _)
    · have hj2 : j = m := by omega
      subst hj2
      have h1 : List.Sublist [i] (List.range j) := by
        simpa [List.singleton_sublist, List.mem_range] using hij
      exact h1.append (List.Sublist.refl [j])

theorem argsort_tie {xs : List ℚ} {i j : ℕ} (hij : i < j) (hj : j < xs.length)
    (heq : xs.getD i 0 = xs.getD j 0) : List.Sublist [i, j] (argsort xs) :=
  List.pair_sublist_insertionSort (le_of_eq heq) (pair_sublist_range hij hj)

theorem pySlice_sublist (l : List α) (k : ℤ) : List.Sublist (pySlice l k) l := by
  unfold pySlice
  split <;> exact List.take_sublist _ _

theorem length_pySlice (l : List α) (k : ℤ) :
    (pySlice l k).length =
      if 0 ≤ k then min k.toNat l.length else min ((l.length : ℤ) + k).toNat l.length := by
  unfold pySlice
  split <;> simp

theorem topIndices_sublist (s : FaissStore) (q : Vec) (k : ℤ) :
    List.Sublist (topIndices s q k) (argsort (similarities s q)).reverse :=
  pySlice_sublist _ _

theorem mem_topIndices_lt {s : FaissStore} {q : Vec} {k : ℤ} {i : ℕ}
    (h : i ∈ topIndices s q k) : i < s.vectors.length := by
  have h2 := (topIndices_sublist s q k).subset h
  rw [List.mem_reverse] at h2
  have h3 := mem_argsort.mp h2
  rwa [length_similarities] at h3

theorem filterMap_eq_map_of_forall {α β : Type _} {l : List α} {f : α → Option β} {g : α → β}
    (h : ∀ a ∈ l, f a = some (g a)) : l.filterMap f = l.map g := by
  induction l with
  | nil => rfl
  | cons a l ih => simp_all

theorem map_getD_range {α β : Type _} (l : List α) (d : α) (f : α → β) :
    (List.range l.length).map (fun i => f (l.getD i d)) = l.map f := by
  apply List.ext_getElem (by simp)
  intro i h1 h2
  simp only [List.length_map, List.length_range] at h1
  simp only [List.getElem_map, List.getElem_range]
  rw [List.getD_eq_getElem _ _ h1]

theorem search_eq_map {s : FaissStore} (hal : s.metadatas.length = s.vectors.length)
    (q : Vec) (k : ℤ) :
    search s q k =
      (topIndices s q k).map
        (fun i => withScore (s.metadatas.getD i {}) ((similarities s q).getD i 0)) := by
  unfold search
  split
  case isTrue hv =>
    have hsim : similarities s q = [] := by simp [similarities, hv]
    have htop : topIndices s q k = [] := by
      simp [topIndices, hsim, argsort, pySlice, List.insertionSort]
    simp [htop]
  case isFalse hv =>
    apply filterMap_eq_map_of_forall
    intro a ha
    have hlt : a < s.metadatas.length := hal ▸ mem_topIndices_lt ha
    rw [dif_pos hlt]
    rw [List.getD_eq_getElem _ _ hlt]
    rfl

theorem length_search {s : FaissStore} (hal : s.metadatas.length = s.vectors.length)
    (q : Vec) (k : ℤ) :
    (search s q k).length =
      if 0 ≤ k then min k.toNat s.vectors.length
      else min ((s.vectors.length : ℤ) + k).toNat s.vectors.length := by
  rw [search_eq_map hal, List.length_map, topIndices, length_pySlice]
  simp [argsort_length, length_similarities]

/-- C1: the fallback embedding is NOT bit-identical across process
restarts.  The vector is the fixed generator applied to
`abs(hash(text)) % 2**32`, and `hash` is salted per process: two
process salts give the text `"hello"` two different seeds, and for a
generator that (like the numpy one) distinguishes those two seeds, two
different vectors.  (Within one process the embedding is a pure function
of the salt and the text, so repeated calls do agree.) -/
theorem C1_fallback_seed_depends_on_process_salt :
    fallbackSeed 0 "hello" ≠ fallbackSeed 1 "hello"
    ∧ get_embedding (fun seed _ => [(seed : ℚ)]) 0 "hello"
        ≠ get_embedding (fun seed _ => [(seed : ℚ)]) 1 "hello" := by
  constructor
  · decide
  · intro h
    simp only [get_embedding, List.cons.injEq, and_true, Nat.cast_inj] at h
    exact absurd h (by decide)

/-- C3: FALSE as stated — the fallback loader does not detect a count
mismatch between the two readable artifacts: it loads one vector and
zero metadata records as-is (a non-empty, misaligned store), and writes
nothing back to disk. -/
theorem C3_counterexample :
    (loadStore EMBEDDING_DIM mismatchedDisk).1.vectors.length = 1
    ∧ (loadStore EMBEDDING_DIM mismatchedDisk).1.metadatas = []
    ∧ (loadStore EMBEDDING_DIM mismatchedDisk).2 = mismatchedDisk :=
  ⟨rfl, rfl, rfl⟩

/-- C3 (amended): loading yields the empty in-memory store when either
artifact is missing or unreadable, never writes anything back to disk,
and takes two readable artifacts as-is even when their counts differ. -/
theorem C3_load_amended (d : DirDisk) :
    ((d.npyBlob = none ∨ d.metaJson = none ∨ d.npyBlob = some none ∨ d.metaJson = some none) →
      (loadStore EMBEDDING_DIM d).1.vectors = [] ∧ (loadStore EMBEDDING_DIM d).1.metadatas = [])
    ∧ (loadStore EMBEDDING_DIM d).2 = d
    ∧ (∀ vs ms, d.npyBlob = some (some vs) → d.metaJson = some (some ms) →
        (loadStore EMBEDDING_DIM d).1.vectors = vs
          ∧ (loadStore EMBEDDING_DIM d).1.metadatas = ms) := by
  obtain ⟨fi, nb, mj⟩ := d
  refine ⟨?_, rfl, ?_⟩
  · rintro (h | h | h | h) <;>
      rcases nb with _ | _ | vs <;> rcases mj with _ | _ | ms <;>
      simp_all [loadStore, loadContents]
  · intro vs ms h1 h2
    rcases nb with _ | _ | vs2 <;> rcases mj with _ | _ | ms2 <;>
      simp_all [loadStore, loadContents]

theorem C3_load_amended_witness :
    (loadStore EMBEDDING_DIM { npyBlob := some none, metaJson := some (some [rec0]) }).1.vectors = []
    ∧ (loadStore EMBEDDING_DIM { npyBlob := some none, metaJson := some (some [rec0]) }).2
        = { npyBlob := some none, metaJson := some (some [rec0]) } :=
  ⟨((C3_load_amended _).1 (Or.inr (Or.inr (Or.inl rfl)))).1, (C3_load_amended _).2.1⟩

/-- C4: FALSE as stated — constructing a store from count-mismatched
artifacts (a load the code performs without any consistency check) is a
public operation that yields a state whose vector and metadata lengths
diverge. -/
theorem C4_counterexample :
    (loadStore EMBEDDING_DIM mismatchedDisk2).1.vectors.length
      ≠ (loadStore EMBEDDING_DIM mismatchedDisk2).1.metadatas.length := by
  intro h
  exact absurd h (by decide)

/-- C4 (amended): the alignment invariant does hold for every state
reachable from a fresh empty store via `add` with equal-length
arguments (`search` and `_save` leave both lists untouched); it is
broken only by loading mismatched artifacts or by `add` with
unequal-length arguments. -/
theorem C4_alignment_amended (s : FaissStore) (h : ReachableStore s) :
    s.vectors.length = s.metadatas.length := by
  induction h with
  | empty dim => rfl
  | step s vecs metas hs hlen ih => simp [add, ih, hlen]

theorem C4_alignment_amended_witness :
    (add ⟨EMBEDDING_DIM, [], []⟩ [[1, 0]] [rec0]).vectors.length
      = (add ⟨EMBEDDING_DIM, [], []⟩ [[1, 0]] [rec0]).metadatas.length :=
  C4_alignment_amended _ (ReachableStore.step _ _ _ (ReachableStore.empty _) rfl)

/-- C5: FALSE as stated — `clear_index` removes only the paths
`faiss.index` and `metadatas.json`; under the fallback provider the
vector blob lives at `faiss.index.npy`, which survives the clear. -/
theorem C5_counterexample :
    ((clear_index (fun _ => populatedDisk)
        { store := some ⟨2, [[1, 0]], [rec0]⟩, dir := some "idx" } "idx").1 "idx").npyBlob
      = some (some [[1, 0]]) := rfl

/-- C5 (amended): `clear_index` deletes the metadata manifest and the
FAISS-format index file and resets the in-process handle to
uninitialized; the fallback vector blob is left on disk, but the next
`get_or_create_index` still rebuilds an empty index bound to the
directory, because the manifest is missing. -/
theorem C5_clear_amended (disks : String → DirDisk) (st : RagState) (d : String) :
    ((clear_index disks st d).1 d).metaJson = none
    ∧ ((clear_index disks st d).1 d).faissIndex = none
    ∧ ((clear_index disks st d).1 d).npyBlob = (disks d).npyBlob
    ∧ (clear_index disks st d).2.store = none
    ∧ (get_or_create_index (clear_index disks st d).1 (clear_index disks st d).2 d).1.vectors = []
    ∧ (get_or_create_index (clear_index disks st d).1 (clear_index disks st d).2 d).1.metadatas = []
    ∧ (get_or_create_index (clear_index disks st d).1 (clear_index disks st d).2 d).2.dir
        = some d := by
  refine ⟨by simp [clear_index, clearDisk], by simp [clear_index, clearDisk],
    by simp [clear_index, clearDisk], rfl, ?_, ?_, ?_⟩
  · simp only [clear_index, clearDisk, get_or_create_index, loadStore, loadContents]
    cases (disks d).npyBlob <;> simp
  · simp only [clear_index, clearDisk, get_or_create_index, loadStore, loadContents]
    cases (disks d).npyBlob <;> simp
  · simp [clear_index, get_or_create_index]

theorem C5_clear_amended_witness :
    ((clear_index (fun _ => populatedDisk)
        { store := some ⟨2, [[1, 0]], [rec0]⟩, dir := some "idx" } "idx").1 "idx").metaJson = none
    ∧ (get_or_create_index
        (clear_index (fun _ => populatedDisk)
          { store := some ⟨2, [[1, 0]], [rec0]⟩, dir := some "idx" } "idx").1
        (clear_index (fun _ => populatedDisk)
          { store := some ⟨2, [[1, 0]], [rec0]⟩, dir := some "idx" } "idx").2 "idx").1.vectors
      = [] :=
  ⟨(C5_clear_amended _ _ _).1, (C5_clear_amended _ _ _).2.2.2.2.1⟩

/-- C9: once a store handle is cached, `get_or_create_index` returns it
unchanged for every directory argument and every filesystem state; only
`clear_index` resets the handle, after which the next call loads from
and binds to the directory it names. -/
theorem C9_cached_handle (disks disks2 : String → DirDisk) (st : RagState) (s : FaissStore)
    (h : st.store = some s) (d d2 : String) :
    get_or_create_index disks st d = (s, st)
    ∧ (get_or_create_index disks st d).1 = (get_or_create_index disks2 st d2).1
    ∧ (clear_index disks st d).2.store = none
    ∧ (get_or_create_index (clear_index disks st d).1 (clear_index disks st d).2 d2).2.dir
        = some d2
    ∧ (get_or_create_index (clear_index disks st d).1 (clear_index disks st d).2 d2).1
        = (loadStore EMBEDDING_DIM ((clear_index disks st d).1 d2)).1 := by
  refine ⟨?_, ?_, rfl, ?_, ?_⟩ <;> simp [get_or_create_index, clear_index, h, loadStore]

theorem C9_cached_handle_witness :
    get_or_create_index (fun _ => ({} : DirDisk))
        { store := some ⟨2, [], []⟩, dir := some "a" } "b"
      = (⟨2, [], []⟩, { store := some ⟨2, [], []⟩, dir := some "a" }) :=
  (C9_cached_handle (fun _ => ({} : DirDisk)) (fun _ => ({} : DirDisk)) _ _ rfl "b" "c").1

/-- C10: `search` is total on every store state, aligned or not: each
candidate index is bounds-checked against the metadata list, out-of-range
candidates are dropped, and every returned record is the stored record at
some in-range index with the score field set on the copy. -/
theorem C10_search_bounds_checked (s : FaissStore) (q : Vec) (k : ℤ) (r : DocRec)
    (hr : r ∈ search s q k) :
    ∃ i, ∃ hi : i < s.metadatas.length,
      r = withScore (s.metadatas.get ⟨i, hi⟩) ((similarities s q).getD i 0) := by
  unfold search at hr
  split at hr
  · simp at hr
  · rw [List.mem_filterMap] at hr
    obtain ⟨i, hmem, heq⟩ := hr
    by_cases hi : i < s.metadatas.length
    · rw [dif_pos hi] at heq
      exact ⟨i, hi, (Option.some_injective _ heq).symm⟩
    · rw [dif_neg hi] at heq
      cases heq

theorem C10_search_bounds_checked_witness :
    ∃ i, ∃ hi : i < misalignedStore.metadatas.length,
      withScore rec0 0
        = withScore (misalignedStore.metadatas.get ⟨i, hi⟩)
            ((similarities misalignedStore [0, 1]).getD i 0) := by
  apply C10_search_bounds_checked misalignedStore [0, 1] 2 (withScore rec0 0)
  have h : search misalignedStore [0, 1] 2 = [withScore rec0 0] := by
    norm_num [search, topIndices, argsort, similarities, dot, normalizeQuery, l2norm, pySlice,
      eps, withScore, keyLE, List.insertionSort, List.orderedInsert, ratSqrt_one,
      misalignedStore, rec0]
    simp
  rw [h]
  exact List.mem_singleton.mpr rfl

/-- C2: FALSE of the in-repo fallback code — its `add` appends the raw
vectors without any normalisation (the comment on the fallback search
nevertheless claims cosine similarity), so searching with the
pre-normalization form of a stored vector yields its norm, not ≈ 1.0:
the store holding only v = (2,0) returns the record of v with score
4/(2+1e-8) ≈ 2, and with u = (3,0) also stored, the top-1 result for
query v = (1,0) is the record of u, not of v. -/
theorem C2_self_retrieval_fails_on_fallback :
    (search ⟨2, [[2, 0]], [rec0]⟩ [2, 0] 1).map DocRec.score = [some (400000000 / 200000001)]
    ∧ (3 / 2 : ℚ) < 400000000 / 200000001
    ∧ (add ⟨2, [], []⟩ [[2, 0]] [rec0]).vectors = [[2, 0]]
    ∧ (search ⟨2, [[3, 0], [1, 0]], [rec0, rec1]⟩ [1, 0] 1).map DocRec.text = ["doc0"] := by
  refine ⟨?_, by norm_num, rfl, ?_⟩
  · simp [search, topIndices, argsort, similarities, dot, normalizeQuery, l2norm, pySlice, eps,
      withScore, keyLE, List.insertionSort, List.orderedInsert, rec0]
    norm_num [ratSqrt_four]
  · have hsim : (similarities ⟨2, [[3, 0], [1, 0]], [rec0, rec1]⟩ [1, 0])
        = [300000000 / 100000001, (100000000 : ℚ) / 100000001] := by
      simp [similarities, dot, normalizeQuery, l2norm, ratSqrt_one, eps]
      norm_num
    have hsort : argsort [300000000 / 100000001, (100000000 : ℚ) / 100000001] = [1, 0] := by
      simp [argsort, keyLE, List.insertionSort, List.orderedInsert]
      norm_num
    simp [search, topIndices, hsim, hsort, pySlice, withScore]
    simp [rec0]

/-- C6: FALSE as stated — a non-positive `k` is not clamped to 1:
`k = 0` returns the empty list even on a non-empty store (a valid top-k
query with clamped k = 1 returns one result there, as the second conjunct
shows). -/
theorem C6_counterexample :
    search ⟨2, [[1, 0], [0, 1]], [rec0, rec1]⟩ [1, 0] 0 = []
    ∧ search ⟨2, [[1, 0], [0, 1]], [rec0, rec1]⟩ [1, 0] 1 ≠ [] := by
  constructor
  · have h := length_search (s := ⟨2, [[1, 0], [0, 1]], [rec0, rec1]⟩) rfl [1, 0] 0
    simp at h
    exact h
  · have h := length_search (s := ⟨2, [[1, 0], [0, 1]], [rec0, rec1]⟩) rfl [1, 0] 1
    intro hnil
    rw [hnil] at h
    simp at h

/-- C6 (amended): a non-positive `k` is not coerced: `k = 0` yields the
empty result, and a negative `k` acts as the Python slice `[:k]` on the
descending ranking, returning `max(0, stored_count + k)` results; no
abort or store corruption occurs in either case. -/
theorem C6_no_clamp_amended (s : FaissStore) (q : Vec) (k : ℤ)
    (hal : s.metadatas.length = s.vectors.length) (hk : k ≤ 0) :
    (k = 0 → search s q k = [])
    ∧ (k < 0 → (search s q k).length = ((s.vectors.length : ℤ) + k).toNat) := by
  constructor
  · rintro rfl
    have h := length_search hal q 0
    simp at h
    exact h
  · intro hneg
    rw [length_search hal, if_neg (by omega)]
    omega

theorem C6_no_clamp_amended_witness :
    (search ⟨2, [[1, 0], [0, 1]], [rec0, rec1]⟩ [1, 0] (-1)).length
      = (((⟨2, [[1, 0], [0, 1]], [rec0, rec1]⟩ : FaissStore).vectors.length : ℤ) + (-1)).toNat :=
  (C6_no_clamp_amended ⟨2, [[1, 0], [0, 1]], [rec0, rec1]⟩ [1, 0] (-1) rfl (by omega)).2
    (by omega)

/-- C7: FALSE as stated in its tie rule — the code reverses a stable
ascending argsort, so equal-similarity candidates come out in reverse
insertion order: with two identical stored vectors (equal scores, second
conjunct), the record inserted second is returned first. -/
theorem C7_counterexample :
    (search ⟨2, [[1, 0], [1, 0]], [rec0, rec1]⟩ [1, 0] 2).map DocRec.text = ["doc1", "doc0"]
    ∧ (similarities ⟨2, [[1, 0], [1, 0]], [rec0, rec1]⟩ [1, 0]).getD 0 0
        = (similarities ⟨2, [[1, 0], [1, 0]], [rec0, rec1]⟩ [1, 0]).getD 1 0 := by
  constructor
  · simp [search, topIndices, argsort, similarities, dot, normalizeQuery, l2norm, pySlice, eps,
      withScore, keyLE, List.insertionSort, List.orderedInsert, ratSqrt_one, rec0, rec1]
  · simp [similarities, dot, normalizeQuery, l2norm, ratSqrt_one, eps]

/-- C7 (amended): for every aligned store and `k ≥ 0`, `search` returns
`min k stored_count` records ordered by non-increasing score; an empty
store yields the empty result; `k ≥ stored_count` returns all records
(up to the score field that `search` overwrites on the copies); and ties
are broken by LATER insertion index: for equal similarities at positions
`i < j`, index `j` precedes index `i` in the ranking the results are
drawn from. -/
theorem C7_search_ordering_amended (s : FaissStore) (q : Vec) (k : ℕ)
    (hal : s.metadatas.length = s.vectors.length) :
    (search s q (k : ℤ)).length = min k s.vectors.length
    ∧ ((search s q (k : ℤ)).map (fun r => r.score.getD 0)).Pairwise (fun a b => b ≤ a)
    ∧ (s.vectors = [] → search s q (k : ℤ) = [])
    ∧ (s.vectors.length ≤ k →
        List.Perm ((search s q (k : ℤ)).map (fun r => { r with score := none }))
          (s.metadatas.map (fun r => { r with score := none })))
    ∧ (∀ i j : ℕ, i < j → j < (similarities s q).length →
        (similarities s q).getD i 0 = (similarities s q).getD j 0 →
        List.Sublist [j, i] (argsort (similarities s q)).reverse) := by
  refine ⟨?_, ?_, ?_, ?_, ?_⟩
  · rw [length_search hal]
    simp
  · rw [search_eq_map hal, List.map_map]
    have hcomp : ((fun r : DocRec => r.score.getD 0)
          ∘ fun i => withScore (s.metadatas.getD i {}) ((similarities s q).getD i 0))
        = fun i => (similarities s q).getD i 0 := by
      funext i
      simp [withScore]
    rw [hcomp, List.pairwise_map]
    have h1 : ((argsort (similarities s q)).reverse).Pairwise
        (fun i j => (similarities s q).getD j 0 ≤ (similarities s q).getD i 0) := by
      rw [List.pairwise_reverse]
      exact argsort_sorted _
    exact h1.sublist (topIndices_sublist s q _)
  · intro hv
    simp [search, hv]
  · intro hk
    rw [search_eq_map hal, List.map_map]
    have htop : topIndices s q (k : ℤ) = (argsort (similarities s q)).reverse := by
      unfold topIndices pySlice
      rw [if_pos (Int.natCast_nonneg k)]
      apply List.take_of_length_le
      simp only [List.length_reverse, argsort_length, length_similarities, Int.toNat_natCast]
      exact hal ▸ (hal ▸ hk)
    rw [htop]
    have hperm : List.Perm ((argsort (similarities s q)).reverse)
        (List.range s.metadatas.length) := by
      refine ((argsort (similarities s q)).reverse_perm).trans ?_
      have hp := argsort_perm (similarities s q)
      rwa [length_similarities, ← hal] at hp
    refine (hperm.map _).trans ?_
    have hmap := map_getD_range s.metadatas ({} : DocRec)
      (fun r => ({ r with score := none } : DocRec))
    rw [← hmap]
    have hfun : ((fun r : DocRec => ({ r with score := none } : DocRec))
          ∘ fun i => withScore (s.metadatas.getD i {}) ((similarities s q).getD i 0))
        = fun i => ({ s.metadatas.getD i {} with score := none } : DocRec) := by
      funext i
      rfl
    rw [hfun]
  · intro i j hij hjlen heq
    have h := (argsort_tie hij hjlen heq).reverse
    simpa using h

theorem C7_search_ordering_amended_witness :
    (search ⟨2, [[1, 0], [1, 0]], [rec0, rec1]⟩ [1, 0] ((2 : ℕ) : ℤ)).length
      = min 2 (⟨2, [[1, 0], [1, 0]], [rec0, rec1]⟩ : FaissStore).vectors.length :=
  (C7_search_ordering_amended ⟨2, [[1, 0], [1, 0]], [rec0, rec1]⟩ [1, 0] 2 rfl).1

theorem length_filterMap_blank (emb : String → Vec) (docs : List DocRec) :
    (docs.filterMap (fun doc =>
        if blankText doc.text then none else some (emb doc.text, doc))).length
      = (docs.filter (fun doc => !blankText doc.text)).length := by
  induction docs with
  | nil => rfl
  | cons a l ih => by_cases hb : blankText a.text <;> simp [hb, ih]

/-- C8: `upsert_documents` silently drops exactly the documents whose
text is empty or blank after trimming, embeds the rest and adds them in
one batch (the counts grow by the number of surviving docs), is a no-op
on the empty input, and on the three-document scenario (physics doc,
"placeholder text" doc, empty-text doc) grows the stored count by
exactly 2 — only the blank text is dropped at ingestion time. -/
theorem C8_upsert_filtering (emb : String → Vec) (s : FaissStore) (d : DirDisk)
    (docs : List DocRec) :
    (upsert_documents emb s d docs).1.vectors.length
      = s.vectors.length + (docs.filter (fun doc => !blankText doc.text)).length
    ∧ (upsert_documents emb s d docs).1.metadatas.length
      = s.metadatas.length + (docs.filter (fun doc => !blankText doc.text)).length
    ∧ upsert_documents emb s d [] = (s, d)
    ∧ (upsert_documents emb ⟨EMBEDDING_DIM, [], []⟩ d scenarioDocs).1.vectors.length = 2 := by
  have hsc1 : blankText "Newtons second law: F=ma" = false := by decide
  have hsc2 : blankText "placeholder text" = false := by decide
  have hsc3 : blankText "" = true := by decide
  refine ⟨?_, ?_, rfl, ?_⟩
  · unfold upsert_documents
    by_cases hnil : docs.filterMap
        (fun doc => if blankText doc.text then none else some (emb doc.text, doc)) = []
    · have h0 : (docs.filter (fun doc => !blankText doc.text)).length = 0 := by
        rw [← length_filterMap_blank emb docs, hnil]
        rfl
      simp [hnil, h0]
    · simp [hnil, addSave, add, length_filterMap_blank]
  · unfold upsert_documents
    by_cases hnil : docs.filterMap
        (fun doc => if blankText doc.text then none else some (emb doc.text, doc)) = []
    · have h0 : (docs.filter (fun doc => !blankText doc.text)).length = 0 := by
        rw [← length_filterMap_blank emb docs, hnil]
        rfl
      simp [hnil, h0]
    · simp [hnil, addSave, add, length_filterMap_blank]
  · simp [upsert_documents, scenarioDocs, hsc1, hsc2, hsc3, addSave, add]

end Rag
